import Mathlib

/-!
Verification of the privacy utility layer of the privacy-analytics-platform
repository (src/main.py): the PII masker `mask_pii` (lines 206-224) and the
noise mechanism `apply_differential_privacy` (lines 226-236).

Modelling choices:
* Python strings are `List Char`; Python slicing `s[-n:]` is
  `s.drop (s.length - n)` and `s[:n]` is `s.take n`, matching CPython
  semantics for non-negative `n` (a short slice returns the whole string).
* Python dicts are association lists with the keys in insertion order;
  CPython dicts never hold a duplicate key, and on such lists `lookup?`
  (first match) and `setK` (replace at key) agree with dict indexing and
  item assignment.
* Record values are strings or (non-string) integers.  `len`, `.split` and
  slicing raise `TypeError`/`AttributeError` on an `int`, so the masking
  steps are `Option`-valued: `none` models the raised exception.
* The Laplace sample drawn by `np.random.laplace` is an input parameter of
  the pure model; the distribution parameters the code passes (loc 0,
  scale 0.1/epsilon) are modelled separately as `laplaceLoc`/`noiseScale`.
  Python floats are modelled as rationals.
-/

namespace PrivacyAnalytics

/-- A Python string, as its sequence of characters. -/
abbrev PyStr := List Char

/-- A value stored in a record: a string, or a non-string (integer) value. -/
inductive PyVal where
  | str (s : PyStr)
  | int (n : Int)
  deriving DecidableEq, Repr

/-- A Python dict with string keys, in insertion order, keys unique. -/
abbrev Record := List (String × PyVal)

/-- Dict lookup: the value at key `k` (first occurrence), if present. -/
def lookup? : Record → String → Option PyVal
  | [], _ => none
  | (k', v) :: rest, k => if k' = k then some v else lookup? rest k

/-- Dict item assignment at an existing key: replace the value stored at
`k`, keeping the key order. -/
def setK : Record → String → PyVal → Record
  | [], _, _ => []
  | (k', v') :: rest, k, v => (if k' = k then (k, v) else (k', v')) :: setK rest k v

/-- Python `s.split(sep)` for a single-character separator: split at every
occurrence, keeping empty parts (`"".split` gives one empty part). -/
def pySplit (c : Char) : PyStr → List PyStr
  | [] => [[]]
  | x :: xs =>
    match pySplit c xs with
    | [] => [[]]
    | y :: ys => if x = c then [] :: y :: ys else (x :: y) :: ys

/-- main.py line 212: `"***" + name[-2:] if len(name) > 2 else "***"`. -/
def maskNameStr (s : PyStr) : PyStr :=
  if s.length > 2 then "***".toList ++ s.drop (s.length - 2) else "***".toList

/-- main.py lines 216-218: split on `"@"`; with exactly two parts, keep the
first two characters of the local part, then `"***@"`, then the domain;
otherwise the value is left as it was. -/
def maskEmailStr (s : PyStr) : PyStr :=
  match pySplit '@' s with
  | [a, b] => a.take 2 ++ "***@".toList ++ b
  | _ => s

/-- main.py line 222: `"***-***-" + phone[-4:]`. -/
def maskPhoneStr (s : PyStr) : PyStr :=
  "***-***-".toList ++ s.drop (s.length - 4)

/-- One masking statement of `mask_pii`: if key `k` is absent the record is
unchanged; if it holds a string the value is replaced by `f` of it; if it
holds a non-string, Python raises (`len`/`.split`/slicing on an `int`),
modelled as `none`. -/
def maskField (r : Record) (k : String) (f : PyStr → PyStr) : Option Record :=
  match lookup? r k with
  | none => some r
  | some (.str s) => some (setK r k (.str (f s)))
  | some (.int _) => none

/-- main.py lines 206-224: `mask_pii` copies the record, then masks
`"name"`, `"email"`, `"phone"` in that order; `none` models a raised
exception. -/
def mask_pii (r : Record) : Option Record :=
  (maskField r "name" maskNameStr).bind fun r1 =>
    (maskField r1 "email" maskEmailStr).bind fun r2 =>
      maskField r2 "phone" maskPhoneStr

/-- The value in an `Option PyVal` slot does not make the masking raise:
the slot is absent or holds a string. -/
def isStrOrAbsent : Option PyVal → Bool
  | some (.int _) => false
  | _ => true

/-- main.py line 229 passes loc `0` to `np.random.laplace`. -/
def laplaceLoc : ℚ := 0

/-- main.py line 229 passes scale `0.1/epsilon` to `np.random.laplace`. -/
def noiseScale (epsilon : ℚ) : ℚ := (1 / 10) / epsilon

/-- main.py lines 226-236: add the drawn Laplace sample `noise` to `value`;
if the original value is strictly positive, clamp the result at 0,
otherwise return it unclamped. -/
def apply_differential_privacy (value noise : ℚ) : ℚ :=
  let result := value + noise
  if value > 0 then max 0 result else result

/-! ### Heap model

`mask_pii` starts with `masked_data = data.copy()` (main.py line 208).
`dict.copy()` is a shallow copy: a new top-level dict object is allocated,
but each value of the original — including references to nested mutable
objects — is carried over as-is.  To reason about mutation and aliasing we
make the heap explicit: records live at addresses, and a value may be a
reference to another heap object.  Non-string values in the three PII slots
make the masking statements raise in Python, modelled as `none` (the store
is unchanged in that case, just as a raised exception leaves the dicts of
the caller untouched). -/

/-- A heap value: a string, a non-string scalar, or a reference to a nested
mutable object stored elsewhere on the heap. -/
inductive HVal where
  | str (s : PyStr)
  | int (n : Int)
  | ref (a : Nat)
  deriving DecidableEq, Repr

/-- A record as stored on the heap. -/
abbrev HRecord := List (String × HVal)

/-- The heap: the next fresh address and the allocated objects. -/
structure Store where
  next : Nat
  mem : List (Nat × HRecord)
  deriving DecidableEq, Repr

/-- Heap lookup by address (first match). -/
def hlookup : List (Nat × HRecord) → Nat → Option HRecord
  | [], _ => none
  | (a', d) :: rest, a => if a' = a then some d else hlookup rest a

/-- Key lookup in a heap record. -/
def hlookupR : HRecord → String → Option HVal
  | [], _ => none
  | (k', v) :: rest, k => if k' = k then some v else hlookupR rest k

/-- Key assignment in a heap record. -/
def hsetK : HRecord → String → HVal → HRecord
  | [], _, _ => []
  | (k', v') :: rest, k, v => (if k' = k then (k, v) else (k', v')) :: hsetK rest k v

/-- One masking statement over a heap record: absent slot leaves the record
unchanged, a string slot is rewritten, a non-string slot raises. -/
def hMaskField (r : HRecord) (k : String) (f : PyStr → PyStr) : Option HRecord :=
  match hlookupR r k with
  | none => some r
  | some (.str s) => some (hsetK r k (.str (f s)))
  | some _ => none

/-- main.py lines 206-224 with the heap explicit: fetch the dict at `a`;
`data.copy()` builds a new top-level dict from the same key-value pairs
(shallow: `ref` values still point to the original nested objects); the
three masking statements update only the new dict, which is allocated at
the fresh address and returned. -/
def mask_pii_st (σ : Store) (a : Nat) : Option (Store × Nat) :=
  (hlookup σ.mem a).bind fun d =>
    (hMaskField d "name" maskNameStr).bind fun d1 =>
      (hMaskField d1 "email" maskEmailStr).bind fun d2 =>
        (hMaskField d2 "phone" maskPhoneStr).map fun d3 =>
          ({ next := σ.next + 1, mem := (σ.next, d3) :: σ.mem }, σ.next)

/-! ### Lemmas about dict assignment and single-field masking -/

lemma lookup?_setK_self (r : Record) (k : String) (v : PyVal) :
    lookup? (setK r k v) k = (lookup? r k).map (fun _ => v) := by
  induction r with
  | nil => rfl
  | cons p rest ih =>
    obtain ⟨a, b⟩ := p
    by_cases h : a = k
    · rw [setK, if_pos h, lookup?, if_pos rfl, lookup?, if_pos h]
      rfl
    · rw [setK, if_neg h, lookup?, if_neg h, lookup?, if_neg h, ih]

lemma lookup?_setK_ne (r : Record) (k k' : String) (v : PyVal) (h : k' ≠ k) :
    lookup? (setK r k v) k' = lookup? r k' := by
  induction r with
  | nil => rfl
  | cons p rest ih =>
    obtain ⟨a, b⟩ := p
    by_cases ha : a = k
    · have hak' : a ≠ k' := fun hh => h (hh ▸ ha)
      rw [setK, if_pos ha, lookup?, if_neg (Ne.symm h), lookup?, if_neg hak', ih]
    · by_cases ha' : a = k'
      · rw [setK, if_neg ha, lookup?, if_pos ha', lookup?, if_pos ha']
      · rw [setK, if_neg ha, lookup?, if_neg ha', lookup?, if_neg ha', ih]

lemma keys_setK (r : Record) (k : String) (v : PyVal) :
    (setK r k v).map Prod.fst = r.map Prod.fst := by
  induction r with
  | nil => rfl
  | cons p rest ih =>
    obtain ⟨a, b⟩ := p
    by_cases h : a = k
    · rw [setK, if_pos h, List.map_cons, List.map_cons, ih]
      simp [h]
    · rw [setK, if_neg h, List.map_cons, List.map_cons, ih]

lemma maskField_str (r : Record) (k : String) (f : PyStr → PyStr) (s : PyStr)
    (h : lookup? r k = some (.str s)) :
    maskField r k f = some (setK r k (.str (f s))) := by
  simp [maskField, h]

lemma maskField_lookup_ne (r : Record) (k : String) (f : PyStr → PyStr) (r' : Record)
    (h : maskField r k f = some r') (k' : String) (hk : k' ≠ k) :
    lookup? r' k' = lookup? r k' := by
  unfold maskField at h
  cases hl : lookup? r k with
  | none =>
    rw [hl] at h
    cases h
    rfl
  | some v =>
    rw [hl] at h
    cases v with
    | str s =>
      cases h
      exact lookup?_setK_ne r k k' _ hk
    | int n => cases h

lemma maskField_keys (r : Record) (k : String) (f : PyStr → PyStr) (r' : Record)
    (h : maskField r k f = some r') :
    r'.map Prod.fst = r.map Prod.fst := by
  unfold maskField at h
  cases hl : lookup? r k with
  | none =>
    rw [hl] at h
    cases h
    rfl
  | some v =>
    rw [hl] at h
    cases v with
    | str s =>
      cases h
      exact keys_setK r k _
    | int n => cases h

lemma maskField_lookup_self (r : Record) (k : String) (f : PyStr → PyStr) (s : PyStr)
    (r' : Record) (h : lookup? r k = some (.str s))
    (h' : maskField r k f = some r') :
    lookup? r' k = some (.str (f s)) := by
  rw [maskField_str r k f s h] at h'
  cases h'
  rw [lookup?_setK_self, h]
  rfl

lemma maskField_isSome (r : Record) (k : String) (f : PyStr → PyStr)
    (h : isStrOrAbsent (lookup? r k) = true) :
    ∃ r', maskField r k f = some r' := by
  unfold maskField
  cases hl : lookup? r k with
  | none => exact ⟨r, rfl⟩
  | some v =>
    cases v with
    | str s => exact ⟨_, rfl⟩
    | int n =>
      rw [hl] at h
      simp [isStrOrAbsent] at h

lemma mask_pii_eq_some_iff (r d : Record) :
    mask_pii r = some d ↔
      ∃ r1 r2, maskField r "name" maskNameStr = some r1 ∧
        maskField r1 "email" maskEmailStr = some r2 ∧
        maskField r2 "phone" maskPhoneStr = some d := by
  simp [mask_pii, Option.bind_eq_some]

/-- Python `s[-n:]` (the last `n` characters, or all of a short string)
agrees with taking `n` characters from the reversed string and reversing. -/
lemma takeLast_eq (s : PyStr) (n : Nat) :
    (s.reverse.take n).reverse = s.drop (s.length - n) := by
  rw [List.take_reverse]
  simp

lemma maskEmailStr_two (s a b : PyStr) (h : pySplit '@' s = [a, b]) :
    maskEmailStr s = a.take 2 ++ "***@".toList ++ b := by
  unfold maskEmailStr
  rw [h]

lemma maskEmailStr_other (s : PyStr) (h : (pySplit '@' s).length ≠ 2) :
    maskEmailStr s = s := by
  unfold maskEmailStr
  cases hp : pySplit '@' s with
  | nil => rfl
  | cons x xs =>
    cases xs with
    | nil => rfl
    | cons y ys =>
      cases ys with
      | nil => simp [hp] at h
      | cons z zs => rfl

/-! ### The claims -/

/-- Claim C1: for every value and noise sample, `apply_differential_privacy`
returns `max 0 (value + noise)` when `value > 0` (hence a non-negative
result), and the unclamped `value + noise` when `value ≤ 0`, where the
result can be negative. -/
theorem apply_differential_privacy_spec :
    (∀ v n : ℚ, 0 < v → apply_differential_privacy v n = max 0 (v + n) ∧
        0 ≤ apply_differential_privacy v n) ∧
    (∀ v n : ℚ, v ≤ 0 → apply_differential_privacy v n = v + n) ∧
    (∃ v n : ℚ, v ≤ 0 ∧ apply_differential_privacy v n < 0) := by
  refine ⟨fun v n hv => ?_, fun v n hv => ?_, ⟨-1, 0, by norm_num, ?_⟩⟩
  · unfold apply_differential_privacy
    rw [if_pos hv]
    exact ⟨rfl, le_max_left 0 _⟩
  · unfold apply_differential_privacy
    rw [if_neg (not_lt.2 hv)]
  · unfold apply_differential_privacy
    rw [if_neg (by norm_num)]
    norm_num

/-- Claim C2: a record whose `"name"` field holds a string of length
greater than 2 gets `"***"` followed by the last 2 characters; a shorter
name becomes exactly `"***"`; in particular `"Al"` maps to `"***"` and
`"John Smith"` maps to `"***th"`. -/
theorem mask_pii_name_spec (r d : Record) (s : PyStr)
    (hs : lookup? r "name" = some (.str s))
    (hd : mask_pii r = some d) :
    lookup? d "name" = some (.str (if s.length > 2
      then "***".toList ++ (s.reverse.take 2).reverse else "***".toList)) ∧
    mask_pii [("name", .str "Al".toList)] = some [("name", .str "***".toList)] ∧
    mask_pii [("name", .str "John Smith".toList)]
      = some [("name", .str "***th".toList)] := by
  refine ⟨?_, by decide, by decide⟩
  obtain ⟨r1, r2, h1, h2, h3⟩ := (mask_pii_eq_some_iff r d).1 hd
  have e1 : lookup? r1 "name" = some (.str (maskNameStr s)) :=
    maskField_lookup_self r "name" maskNameStr s r1 hs h1
  have e2 : lookup? r2 "name" = some (.str (maskNameStr s)) :=
    (maskField_lookup_ne r1 "email" maskEmailStr r2 h2 "name" (by decide)).trans e1
  have e3 : lookup? d "name" = some (.str (maskNameStr s)) :=
    (maskField_lookup_ne r2 "phone" maskPhoneStr d h3 "name" (by decide)).trans e2
  rw [e3]
  simp only [maskNameStr, takeLast_eq]

/-- Claim C3: a record whose `"email"` field holds a string splitting on
`"@"` into exactly two parts gets the first 2 characters of the local part,
then `"***@"`, then the domain; with zero or several `"@"` the field is
unchanged; in particular `"john.smith@email.com"` maps to
`"jo***@email.com"` and `"not-an-email"` is unchanged. -/
theorem mask_pii_email_spec (r d : Record) (s : PyStr)
    (hs : lookup? r "email" = some (.str s))
    (hd : mask_pii r = some d) :
    (∀ a b : PyStr, pySplit '@' s = [a, b] →
      lookup? d "email" = some (.str (a.take 2 ++ "***@".toList ++ b))) ∧
    ((pySplit '@' s).length ≠ 2 → lookup? d "email" = some (.str s)) ∧
    mask_pii [("email", .str "john.smith@email.com".toList)]
      = some [("email", .str "jo***@email.com".toList)] ∧
    mask_pii [("email", .str "not-an-email".toList)]
      = some [("email", .str "not-an-email".toList)] := by
  obtain ⟨r1, r2, h1, h2, h3⟩ := (mask_pii_eq_some_iff r d).1 hd
  have e1 : lookup? r1 "email" = some (.str s) :=
    (maskField_lookup_ne r "name" maskNameStr r1 h1 "email" (by decide)).trans hs
  have e2 : lookup? r2 "email" = some (.str (maskEmailStr s)) :=
    maskField_lookup_self r1 "email" maskEmailStr s r2 e1 h2
  have e3 : lookup? d "email" = some (.str (maskEmailStr s)) :=
    (maskField_lookup_ne r2 "phone" maskPhoneStr d h3 "email" (by decide)).trans e2
  refine ⟨fun a b hab => ?_, fun hlen => ?_, by decide, by decide⟩
  · rw [e3, maskEmailStr_two s a b hab]
  · rw [e3, maskEmailStr_other s hlen]

/-- Claim C4: a record whose `"phone"` field holds a string of at least 4
characters gets `"***-***-"` followed by its last 4 characters; in
particular `"555-0123"` maps to `"***-***-0123"`. -/
theorem mask_pii_phone_spec (r d : Record) (s : PyStr)
    (hs : lookup? r "phone" = some (.str s)) (hlen : 4 ≤ s.length)
    (hd : mask_pii r = some d) :
    lookup? d "phone" = some (.str ("***-***-".toList ++ (s.reverse.take 4).reverse)) ∧
    (s.reverse.take 4).reverse.length = 4 ∧
    mask_pii [("phone", .str "555-0123".toList)]
      = some [("phone", .str "***-***-0123".toList)] := by
  obtain ⟨r1, r2, h1, h2, h3⟩ := (mask_pii_eq_some_iff r d).1 hd
  have e1 : lookup? r1 "phone" = some (.str s) :=
    (maskField_lookup_ne r "name" maskNameStr r1 h1 "phone" (by decide)).trans hs
  have e2 : lookup? r2 "phone" = some (.str s) :=
    (maskField_lookup_ne r1 "email" maskEmailStr r2 h2 "phone" (by decide)).trans e1
  have e3 : lookup? d "phone" = some (.str (maskPhoneStr s)) :=
    maskField_lookup_self r2 "phone" maskPhoneStr s d e2 h3
  refine ⟨?_, ?_, by decide⟩
  · rw [e3]
    simp only [maskPhoneStr, takeLast_eq]
  · simp [Nat.min_eq_left hlen]

/-- Claim C9: a record whose `"phone"` field holds a string of fewer than 4
characters gets `"***-***-"` followed by the entire original string; the
empty phone maps to exactly `"***-***-"`. -/
theorem mask_pii_short_phone_spec (r d : Record) (s : PyStr)
    (hs : lookup? r "phone" = some (.str s)) (hlen : s.length < 4)
    (hd : mask_pii r = some d) :
    lookup? d "phone" = some (.str ("***-***-".toList ++ s)) ∧
    mask_pii [("phone", .str [])] = some [("phone", .str "***-***-".toList)] := by
  obtain ⟨r1, r2, h1, h2, h3⟩ := (mask_pii_eq_some_iff r d).1 hd
  have e1 : lookup? r1 "phone" = some (.str s) :=
    (maskField_lookup_ne r "name" maskNameStr r1 h1 "phone" (by decide)).trans hs
  have e2 : lookup? r2 "phone" = some (.str s) :=
    (maskField_lookup_ne r1 "email" maskEmailStr r2 h2 "phone" (by decide)).trans e1
  have e3 : lookup? d "phone" = some (.str (maskPhoneStr s)) :=
    maskField_lookup_self r2 "phone" maskPhoneStr s d e2 h3
  refine ⟨?_, by decide⟩
  rw [e3]
  simp only [maskPhoneStr, Nat.sub_eq_zero_of_le (Nat.le_of_lt hlen), List.drop_zero]

/-- Claim C7: every key other than `"name"`, `"email"`, `"phone"` holds the
same value in `mask_pii r` as in `r`. -/
theorem mask_pii_non_pii_passthrough (r d : Record) (k : String)
    (hk1 : k ≠ "name") (hk2 : k ≠ "email") (hk3 : k ≠ "phone")
    (hd : mask_pii r = some d) :
    lookup? d k = lookup? r k := by
  obtain ⟨r1, r2, h1, h2, h3⟩ := (mask_pii_eq_some_iff r d).1 hd
  rw [maskField_lookup_ne r2 "phone" maskPhoneStr d h3 k hk3,
    maskField_lookup_ne r1 "email" maskEmailStr r2 h2 k hk2,
    maskField_lookup_ne r "name" maskNameStr r1 h1 k hk1]

/-- Claim C10: the record returned by `mask_pii` has exactly the keys of
the input record, in the same order. -/
theorem mask_pii_keys_spec (r d : Record) (hd : mask_pii r = some d) :
    d.map Prod.fst = r.map Prod.fst := by
  obtain ⟨r1, r2, h1, h2, h3⟩ := (mask_pii_eq_some_iff r d).1 hd
  rw [maskField_keys r2 "phone" maskPhoneStr d h3,
    maskField_keys r1 "email" maskEmailStr r2 h2,
    maskField_keys r "name" maskNameStr r1 h1]

/-- Claim C6 as amended: `mask_pii` never raises on a record whose
`"name"`, `"email"` and `"phone"` slots, where present, hold strings;
absent fields are skipped.  (Unamended, the claim fails: a non-string in
one of those slots makes the Python code raise, see the counterexample.) -/
theorem mask_pii_total_on_strings (r : Record)
    (h1 : isStrOrAbsent (lookup? r "name") = true)
    (h2 : isStrOrAbsent (lookup? r "email") = true)
    (h3 : isStrOrAbsent (lookup? r "phone") = true) :
    (mask_pii r).isSome = true := by
  obtain ⟨r1, e1⟩ := maskField_isSome r "name" maskNameStr h1
  have h2' : isStrOrAbsent (lookup? r1 "email") = true := by
    rw [maskField_lookup_ne r "name" maskNameStr r1 e1 "email" (by decide)]
    exact h2
  obtain ⟨r2, e2⟩ := maskField_isSome r1 "email" maskEmailStr h2'
  have h3' : isStrOrAbsent (lookup? r2 "phone") = true := by
    rw [maskField_lookup_ne r1 "email" maskEmailStr r2 e2 "phone" (by decide),
      maskField_lookup_ne r "name" maskNameStr r1 e1 "phone" (by decide)]
    exact h3
  obtain ⟨r3, e3⟩ := maskField_isSome r2 "phone" maskPhoneStr h3'
  rw [(mask_pii_eq_some_iff r r3).2 ⟨r1, r2, e1, e2, e3⟩]
  rfl

/-- Claim C6, counterexample: on a record whose `"name"` field holds the
non-string value `5`, the code raises (`len(5)` is a `TypeError`), so
`mask_pii` is not total over all records. -/
theorem mask_pii_raises_counterexample :
    mask_pii [("name", PyVal.int 5)] = none := by decide

/-- Claim C8: `apply_differential_privacy` passes loc `0` and scale
`0.1/epsilon` (constant `k = 0.1`) to the Laplace sampler — so the scale
`b` satisfies `b * epsilon = 0.1`, and at `epsilon = 0.1` the scale is
`1` — and the drawn sample is added to `value` before post-processing. -/
theorem apply_differential_privacy_scale_spec :
    laplaceLoc = 0 ∧
    (∀ ε : ℚ, ε ≠ 0 → noiseScale ε * ε = 1 / 10) ∧
    noiseScale (1 / 10) = 1 ∧
    (∀ v n : ℚ, apply_differential_privacy v n
      = if 0 < v then max 0 (v + n) else v + n) := by
  refine ⟨rfl, fun ε hε => ?_, ?_, fun v n => rfl⟩
  · unfold noiseScale
    field_simp
    ring
  · unfold noiseScale
    norm_num

/-- Claim C5 as amended: `mask_pii` never mutates the caller's record — on
success every previously allocated heap object is exactly as before, and
the returned record is a newly allocated dict — but the copy is shallow
(`data.copy()`), so nested mutable values are aliased, not duplicated. -/
theorem mask_pii_no_mutation (σ σ' : Store) (a a' b : Nat)
    (h : mask_pii_st σ a = some (σ', a')) (hb : b ≠ σ.next) :
    hlookup σ'.mem b = hlookup σ.mem b ∧ a' = σ.next := by
  unfold mask_pii_st at h
  simp only [Option.bind_eq_some, Option.map_eq_some'] at h
  obtain ⟨d, h0, d1, e1, d2, e2, d3, e3, hfin⟩ := h
  injection hfin with hσ ha
  subst hσ
  subst ha
  refine ⟨?_, rfl⟩
  rw [hlookup, if_neg (fun hh => hb hh.symm)]

/-- Claim C5, counterexample: `data.copy()` is shallow, so when the input
record holds a reference to a nested mutable object, the returned record
holds the very same reference — the output aliases the input's nested
structure. -/
theorem mask_pii_alias_counterexample :
    (mask_pii_st ⟨2, [(0, [("payload", HVal.ref 1)]), (1, [("x", HVal.int 7)])]⟩ 0).map
        (fun p => (hlookup p.1.mem p.2).map fun d => hlookupR d "payload")
      = some (some (some (HVal.ref 1))) ∧
    hlookupR [("payload", HVal.ref 1)] "payload" = some (HVal.ref 1) := by
  exact ⟨by decide, by decide⟩

/-! ### Witnesses: each theorem above with hypotheses, at a concrete input -/

/-- Witness for C2, at the record of the spec's example. -/
theorem mask_pii_name_spec_witness :
    mask_pii [("name", PyVal.str "John Smith".toList)]
      = some [("name", PyVal.str "***th".toList)] :=
  (mask_pii_name_spec [("name", PyVal.str "John Smith".toList)]
    [("name", PyVal.str "***th".toList)] ("John Smith".toList)
    (by decide) (by decide)).2.2

/-- Witness for C3, at the record of the spec's example. -/
theorem mask_pii_email_spec_witness :
    mask_pii [("email", PyVal.str "john.smith@email.com".toList)]
      = some [("email", PyVal.str "jo***@email.com".toList)] :=
  (mask_pii_email_spec [("email", PyVal.str "john.smith@email.com".toList)]
    [("email", PyVal.str "jo***@email.com".toList)] ("john.smith@email.com".toList)
    (by decide) (by decide)).2.2.1

/-- Witness for C4, at the record of the spec's example. -/
theorem mask_pii_phone_spec_witness :
    mask_pii [("phone", PyVal.str "555-0123".toList)]
      = some [("phone", PyVal.str "***-***-0123".toList)] :=
  (mask_pii_phone_spec [("phone", PyVal.str "555-0123".toList)]
    [("phone", PyVal.str "***-***-0123".toList)] ("555-0123".toList)
    (by decide) (by decide) (by decide)).2.2

/-- Witness for C9, at the empty phone string. -/
theorem mask_pii_short_phone_spec_witness :
    mask_pii [("phone", PyVal.str [])]
      = some [("phone", PyVal.str "***-***-".toList)] :=
  (mask_pii_short_phone_spec [("phone", PyVal.str [])]
    [("phone", PyVal.str "***-***-".toList)] []
    (by decide) (by decide) (by decide)).2

/-- Witness for C7: the non-PII key `"age"` of a concrete record is
untouched by masking. -/
theorem mask_pii_non_pii_passthrough_witness :
    lookup? [("name", PyVal.str "***th".toList), ("age", PyVal.int 35)] "age"
      = lookup? [("name", PyVal.str "John Smith".toList), ("age", PyVal.int 35)] "age" :=
  mask_pii_non_pii_passthrough
    [("name", PyVal.str "John Smith".toList), ("age", PyVal.int 35)]
    [("name", PyVal.str "***th".toList), ("age", PyVal.int 35)]
    "age" (by decide) (by decide) (by decide) (by decide)

/-- Witness for C10: key preservation at a concrete record. -/
theorem mask_pii_keys_spec_witness :
    ([("name", PyVal.str "***th".toList), ("age", PyVal.int 35)] : Record).map Prod.fst
      = ([("name", PyVal.str "John Smith".toList), ("age", PyVal.int 35)] : Record).map Prod.fst :=
  mask_pii_keys_spec
    [("name", PyVal.str "John Smith".toList), ("age", PyVal.int 35)]
    [("name", PyVal.str "***th".toList), ("age", PyVal.int 35)]
    (by decide)

/-- Witness for C6 as amended: a record with a string name and a non-string
non-PII field is masked without an error. -/
theorem mask_pii_total_on_strings_witness :
    (mask_pii [("name", PyVal.str "Al".toList), ("age", PyVal.int 35)]).isSome = true :=
  mask_pii_total_on_strings [("name", PyVal.str "Al".toList), ("age", PyVal.int 35)]
    (by decide) (by decide) (by decide)

/-- Witness for C5 as amended: masking a concrete one-record heap leaves
the object at the old address exactly as it was. -/
theorem mask_pii_no_mutation_witness :
    hlookup [(1, [("name", HVal.str "***".toList)]), (0, [("name", HVal.str "Al".toList)])] 0
      = hlookup [(0, [("name", HVal.str "Al".toList)])] 0 ∧ (1 : Nat) = 1 :=
  mask_pii_no_mutation ⟨1, [(0, [("name", HVal.str "Al".toList)])]⟩
    ⟨2, [(1, [("name", HVal.str "***".toList)]), (0, [("name", HVal.str "Al".toList)])]⟩
    0 1 0 (by decide) (by decide)

end PrivacyAnalytics
